import Mathlib

/-!
Verification of the TrabalhoPrimosSec repository: a shallow embedding of the
pseudorandom generators (`src/prng.py`), the primality testers and the prime
search loop (`src/prime.py`), together with theorems settling the
specification's claims about them.

Modelling conventions:
* Python arbitrary-precision integers are `Nat` (all seeds, states and
  candidates handled by the code are non-negative).
* Python generators (lazy infinite sequences) are functions `Nat → Nat`
  giving the i-th yielded value; the internal state after i steps is a
  separate function.
* `random.randint` draws are an explicit oracle `draws : Nat → Nat`
  (the value drawn at trial t), so theorems quantify over all draw
  sequences.
* Wall-clock time is external: per-batch elapsed times are inputs (ℚ).
-/

/-! ## Generator engine (src/prng.py) -/

/-- One step of the linear congruential generator:
`state = (a * state + c) % modulus` with `modulus = 1 << bits`
(src/prng.py line 28). -/
def lcg_step (bits a c state : Nat) : Nat :=
  (a * state + c) % (1 <<< bits)

/-- Internal LCG state after `n` production steps.  `lcg_state seed bits a c 0`
is the state right after construction: `state = seed % modulus`
(src/prng.py line 25). -/
def lcg_state (seed bits a c : Nat) : Nat → Nat
  | 0 => seed % (1 <<< bits)
  | n + 1 => lcg_step bits a c (lcg_state seed bits a c n)

/-- The i-th value yielded by `lcg_numpy(seed, bits, a, c)` (0-indexed):
the generator advances once before each yield (src/prng.py lines 27-29). -/
def lcg_numpy (seed bits a c : Nat) (i : Nat) : Nat :=
  lcg_state seed bits a c (i + 1)

/-- Shift triple selection by bit size (src/prng.py lines 49-64). -/
def choose_xorshift_parameters (bits : Nat) : Nat × Nat × Nat :=
  if bits ≤ 32 then (13, 17, 5)
  else if bits ≤ 64 then (13, 7, 17)
  else if bits ≤ 96 then (10, 5, 26)
  else if bits ≤ 128 then (5, 14, 1)
  else (bits / 3, bits / 2, bits / 5)

/-- One xorshift step: three xor-shift substeps, each shifted value masked
to `bits` bits before the xor (src/prng.py lines 72-75). -/
def xorshift_step (bits s1 s2 s3 state : Nat) : Nat :=
  let m := (1 <<< bits) - 1
  let state1 := state ^^^ ((state <<< s1) &&& m)
  let state2 := state1 ^^^ ((state1 >>> s2) &&& m)
  state2 ^^^ ((state2 <<< s3) &&& m)

/-- Internal xorshift state after `n` production steps.
Construction masks the seed: `state = seed & ((1 << bits) - 1)`
(src/prng.py line 67). -/
def xorshift_state (seed bits : Nat) : Nat → Nat
  | 0 => seed &&& ((1 <<< bits) - 1)
  | n + 1 =>
    let p := choose_xorshift_parameters bits
    xorshift_step bits p.1 p.2.1 p.2.2 (xorshift_state seed bits n)

/-- The i-th value yielded by `xorshift_numpy(seed, bits)` (0-indexed),
the state after i+1 steps (src/prng.py lines 71-76). -/
def xorshift_numpy (seed bits : Nat) (i : Nat) : Nat :=
  xorshift_state seed bits (i + 1)

/-! ## Generator bounds -/

lemma one_shiftLeft_pos (bits : Nat) : 0 < 1 <<< bits := by
  rw [Nat.one_shiftLeft]
  exact Nat.pos_pow_of_pos bits (by decide)

lemma lcg_state_lt (seed bits a c n : Nat) :
    lcg_state seed bits a c n < 2 ^ bits := by
  have h : lcg_state seed bits a c n < 1 <<< bits := by
    cases n with
    | zero => exact Nat.mod_lt _ (one_shiftLeft_pos bits)
    | succ n => exact Nat.mod_lt _ (one_shiftLeft_pos bits)
  rwa [Nat.one_shiftLeft] at h

lemma xorshift_step_lt (bits s1 s2 s3 state : Nat)
    (h : state < 2 ^ bits) : xorshift_step bits s1 s2 s3 state < 2 ^ bits := by
  unfold xorshift_step
  have hm : ∀ x : Nat, x &&& ((1 <<< bits) - 1) < 2 ^ bits := by
    intro x
    rw [Nat.one_shiftLeft]
    exact Nat.and_lt_two_pow x (by
      have := Nat.pos_pow_of_pos bits (show 0 < 2 by decide)
      omega)
  exact Nat.xor_lt_two_pow (Nat.xor_lt_two_pow (Nat.xor_lt_two_pow h (hm _)) (hm _)) (hm _)

lemma xorshift_state_lt (seed bits n : Nat) :
    xorshift_state seed bits n < 2 ^ bits := by
  induction n with
  | zero =>
    show seed &&& ((1 <<< bits) - 1) < 2 ^ bits
    rw [Nat.one_shiftLeft]
    exact Nat.and_lt_two_pow seed (by
      have := Nat.pos_pow_of_pos bits (show 0 < 2 by decide)
      omega)
  | succ n ih => exact xorshift_step_lt _ _ _ _ _ ih

/-- C3: every value yielded by either generator variant, and every internal
state after any number of production steps, lies in [0, 2^W). -/
theorem generators_bounded (seed bits a c i : Nat) :
    lcg_numpy seed bits a c i < 2 ^ bits ∧
    xorshift_numpy seed bits i < 2 ^ bits ∧
    lcg_state seed bits a c i < 2 ^ bits ∧
    xorshift_state seed bits i < 2 ^ bits :=
  ⟨lcg_state_lt seed bits a c (i + 1), xorshift_state_lt seed bits (i + 1),
   lcg_state_lt seed bits a c i, xorshift_state_lt seed bits i⟩

/-! ## Seed dependence only modulo 2^W (C10) and silent clamping (C5) -/

lemma lcg_state_mod_seed (seed bits a c n : Nat) :
    lcg_state seed bits a c n = lcg_state (seed % 2 ^ bits) bits a c n := by
  induction n with
  | zero =>
    show seed % (1 <<< bits) = seed % 2 ^ bits % (1 <<< bits)
    rw [Nat.one_shiftLeft]
    exact (Nat.mod_mod_of_dvd seed dvd_rfl).symm
  | succ n ih =>
    show lcg_step bits a c _ = lcg_step bits a c _
    rw [ih]

lemma xorshift_state_mod_seed (seed bits n : Nat) :
    xorshift_state seed bits n = xorshift_state (seed % 2 ^ bits) bits n := by
  induction n with
  | zero =>
    show seed &&& ((1 <<< bits) - 1) = seed % 2 ^ bits &&& ((1 <<< bits) - 1)
    rw [Nat.one_shiftLeft, Nat.and_pow_two_sub_one_eq_mod,
      Nat.and_pow_two_sub_one_eq_mod]
    exact (Nat.mod_mod_of_dvd seed dvd_rfl).symm
  | succ n ih =>
    show xorshift_step _ _ _ _ _ = xorshift_step _ _ _ _ _
    rw [ih]

/-- C10: both generators depend on the seed only modulo 2^W — the output
sequences for seed s and for s mod 2^W are identical, position by position. -/
theorem generators_seed_mod (seed bits a c i : Nat) :
    lcg_numpy seed bits a c i = lcg_numpy (seed % 2 ^ bits) bits a c i ∧
    xorshift_numpy seed bits i = xorshift_numpy (seed % 2 ^ bits) bits i :=
  ⟨lcg_state_mod_seed seed bits a c (i + 1),
   xorshift_state_mod_seed seed bits (i + 1)⟩

/-- C5 counterexample: with the out-of-range seed 300 at width 8, the LCG does
not signal any error — construction silently clamps the state to 300 mod 256
= 44, and the generator yields exactly what the in-range seed 44 yields
(first value 245).  Likewise, bit width 0 yields 0 instead of an error. -/
theorem lcg_clamps_out_of_range_seed :
    lcg_state 300 8 1103515245 12345 0 = 44 ∧
    lcg_numpy 300 8 1103515245 12345 0 = 245 ∧
    lcg_numpy 44 8 1103515245 12345 0 = 245 ∧
    xorshift_state 300 8 0 = 44 ∧
    lcg_numpy 42 0 1103515245 12345 0 = 0 := by
  refine ⟨by decide, ?_, ?_, by decide, by decide⟩ <;>
    · show (1103515245 * (_ % (1 <<< 8)) + 12345) % (1 <<< 8) = 245
      decide

/-- C5 amended: every seed is accepted; construction silently reduces the
seed into range (LCG initial state is seed mod 2^W, xorshift initial state
is seed AND (2^W - 1) = seed mod 2^W), and no error is ever signalled. -/
theorem generators_clamp_seed (seed bits a c : Nat) :
    lcg_state seed bits a c 0 = seed % 2 ^ bits ∧
    xorshift_state seed bits 0 = seed % 2 ^ bits := by
  constructor
  · show seed % (1 <<< bits) = seed % 2 ^ bits
    rw [Nat.one_shiftLeft]
  · show seed &&& ((1 <<< bits) - 1) = seed % 2 ^ bits
    rw [Nat.one_shiftLeft, Nat.and_pow_two_sub_one_eq_mod]

/-- C6: the LCG with seed 42, width 8 and the glibc constants yields 27 first,
which equals (109*42+57) mod 256 with 109 = a mod 256 and 57 = c mod 256. -/
theorem lcg_example_vector :
    lcg_numpy 42 8 1103515245 12345 0 = 27 ∧
    (109 * 42 + 57) % 256 = 27 ∧
    1103515245 % 256 = 109 ∧ 12345 % 256 = 57 := by
  refine ⟨?_, by decide, by decide, by decide⟩
  show (1103515245 * (42 % (1 <<< 8)) + 12345) % (1 <<< 8) = 27
  decide

/-! ## Primality testers (src/prime.py) -/

/-- Outcome of one Miller-Rabin trial: `pass` continues to the next trial,
`composite` makes the whole test return false. -/
inductive TrialResult where
  | pass : TrialResult
  | composite : TrialResult
deriving DecidableEq

/-- The loop `while d % 2 == 0: d //= 2; s += 1` of src/prime.py lines 36-38,
run with explicit fuel (the loop halves d, so fuel d always suffices).
Returns (s, final d). -/
def splitTwoFuel : Nat → Nat → Nat × Nat
  | 0, d => (0, d)
  | fuel + 1, d =>
    if d % 2 = 0 ∧ d ≠ 0 then
      let p := splitTwoFuel fuel (d / 2)
      (p.1 + 1, p.2)
    else (0, d)

/-- Factor d as 2^s * d' with d' odd (for d ≥ 1): the s, d computed at
src/prime.py lines 34-38 from d = n - 1. -/
def splitTwo (d : Nat) : Nat × Nat := splitTwoFuel d d

/-- The inner loop `for i in range(s - 1)` of src/prime.py lines 48-55,
iterating i with `count` iterations remaining.  Each iteration computes
`x = pow(x, pow(2, i)*d, n)` and then either breaks with a pass (when
x equals -1 % n = n - 1) or returns False for the whole test: the
`else: return False` is attached to the `if`, so no iteration beyond the
first one can ever run, and an exhausted (empty) range falls through as
a pass. -/
def mr_inner (n d x i count : Nat) : TrialResult :=
  match count with
  | 0 => TrialResult.pass
  | _ + 1 =>
    let x1 := x ^ (2 ^ i * d) % n
    if x1 = n - 1 then TrialResult.pass
    else TrialResult.composite

/-- One Miller-Rabin trial with base a (src/prime.py lines 43-55):
x = a^d mod n; if x == 1 the trial passes, otherwise the inner loop runs
over range(s - 1). -/
def mr_trial (n d s a : Nat) : TrialResult :=
  let x := a ^ d % n
  if x = 1 then TrialResult.pass
  else mr_inner n d x 0 (s - 1)

/-- The trial loop `for _ in range(k)` of src/prime.py lines 41-55; `t` is the
index of the current trial (used to query the draw oracle), `k` the number of
trials remaining.  A composite verdict returns false immediately. -/
def mr_trials (n d s : Nat) (draws : Nat → Nat) (t : Nat) : Nat → Bool
  | 0 => true
  | k + 1 =>
    match mr_trial n d s (draws t) with
    | TrialResult.pass => mr_trials n d s draws (t + 1) k
    | TrialResult.composite => false

/-- `miller_rabin_test(n, k)` of src/prime.py lines 21-58, with the random
base of trial t given by `draws t` (the code draws
`a = random.randint(1, n - 1)`). -/
def miller_rabin_test (n k : Nat) (draws : Nat → Nat) : Bool :=
  if n ≤ 1 then false
  else if n ≤ 3 then true
  else if n % 2 = 0 then false
  else
    let p := splitTwo (n - 1)
    mr_trials n p.2 p.1 draws 0 k

/-- The trial loop of `fermat_test` (src/prime.py lines 14-17): trial t draws
base a = draws t and fails immediately unless a^(n-1) mod n = 1. -/
def fermat_trials (n : Nat) (draws : Nat → Nat) (t : Nat) : Nat → Bool
  | 0 => true
  | k + 1 =>
    if (draws t) ^ (n - 1) % n ≠ 1 then false
    else fermat_trials n draws (t + 1) k

/-- `fermat_test(n, k)` of src/prime.py lines 8-18. -/
def fermat_test (n k : Nat) (draws : Nat → Nat) : Bool :=
  if n ≤ 1 then false
  else if n ≤ 3 then true
  else fermat_trials n draws 0 k

/-! ## The Miller-Rabin inner loop (C1, C2, C9) -/

lemma splitTwoFuel_odd (fuel d : Nat) (h : d % 2 = 1) :
    splitTwoFuel fuel d = (0, d) := by
  cases fuel with
  | zero => rfl
  | succ fuel =>
    show (if d % 2 = 0 ∧ d ≠ 0 then _ else ((0 : Nat), d)) = (0, d)
    rw [if_neg]
    omega

lemma splitTwo_two_mod_four (d : Nat) (h : d % 4 = 2) :
    splitTwo d = (1, d / 2) := by
  obtain ⟨m, rfl⟩ : ∃ m, d = m + 1 := ⟨d - 1, by omega⟩
  show splitTwoFuel (m + 1) (m + 1) = (1, (m + 1) / 2)
  have hcond : (m + 1) % 2 = 0 ∧ m + 1 ≠ 0 := by omega
  show (if (m + 1) % 2 = 0 ∧ m + 1 ≠ 0 then
      let p := splitTwoFuel m ((m + 1) / 2)
      (p.1 + 1, p.2)
    else (0, m + 1)) = (1, (m + 1) / 2)
  rw [if_pos hcond, splitTwoFuel_odd m ((m + 1) / 2) (by omega)]

lemma mr_trial_pass_of_s_one (n d a : Nat) : mr_trial n d 1 a = TrialResult.pass := by
  unfold mr_trial
  by_cases h : a ^ d % n = 1
  · rw [if_pos h]
  · rw [if_neg h]
    rfl

lemma mr_trials_s_one (n d : Nat) (draws : Nat → Nat) (t k : Nat) :
    mr_trials n d 1 draws t k = true := by
  induction k generalizing t with
  | zero => rfl
  | succ k ih =>
    show (match mr_trial n d 1 (draws t) with
      | TrialResult.pass => mr_trials n d 1 draws (t + 1) k
      | TrialResult.composite => false) = true
    rw [mr_trial_pass_of_s_one]
    exact ih (t + 1)

lemma miller_rabin_mod_four_eq_three (n k : Nat) (draws : Nat → Nat)
    (h3 : 3 < n) (h4 : n % 4 = 3) : miller_rabin_test n k draws = true := by
  have h1 : ¬ n ≤ 1 := by omega
  have h2 : ¬ n ≤ 3 := by omega
  have he : ¬ n % 2 = 0 := by omega
  have hs : splitTwo (n - 1) = (1, (n - 1) / 2) :=
    splitTwo_two_mod_four (n - 1) (by omega)
  unfold miller_rabin_test
  rw [if_neg h1, if_neg h2, if_neg he]
  show mr_trials n (splitTwo (n - 1)).2 (splitTwo (n - 1)).1 draws 0 k = true
  rw [hs]
  exact mr_trials_s_one n ((n - 1) / 2) draws 0 k

/-- C9: for every n > 3 with n ≡ 3 (mod 4) (so n - 1 = 2^1 * d, d odd, and
`range(s - 1)` is empty), every trial count k and every draw sequence,
`miller_rabin_test` returns true — including for composite n. -/
theorem miller_rabin_always_true_mod_four (n k : Nat) (draws : Nat → Nat)
    (h3 : 3 < n) (h4 : n % 4 = 3) : miller_rabin_test n k draws = true :=
  miller_rabin_mod_four_eq_three n k draws h3 h4

/-- C9 witness: instantiated at the composite inputs 15, 27 and 35 named by
the claim, with concrete draw sequences. -/
theorem miller_rabin_always_true_mod_four_witness :
    (3 < 15 ∧ 15 % 4 = 3 ∧ miller_rabin_test 15 3 (fun _ => 4) = true) ∧
    (3 < 27 ∧ 27 % 4 = 3 ∧ miller_rabin_test 27 5 (fun t => t + 2) = true) ∧
    (3 < 35 ∧ 35 % 4 = 3 ∧ miller_rabin_test 35 0 (fun _ => 1) = true) :=
  ⟨⟨by decide, by decide, miller_rabin_always_true_mod_four 15 3 _ (by decide) (by decide)⟩,
   ⟨by decide, by decide, miller_rabin_always_true_mod_four 27 5 _ (by decide) (by decide)⟩,
   ⟨by decide, by decide, miller_rabin_always_true_mod_four 35 0 _ (by decide) (by decide)⟩⟩

/-- C2 failing input: the code returns true ("probably prime") for the
composite 15 for every base draw sequence shown, with k = 1 and k = 5;
a correct Miller-Rabin run with base 4 would report 15 composite. -/
theorem miller_rabin_accepts_composite_15 :
    miller_rabin_test 15 1 (fun _ => 4) = true ∧
    miller_rabin_test 15 5 (fun t => (4 + 7 * t) % 14 + 1) = true ∧
    ¬ Nat.Prime 15 := by
  refine ⟨by decide, by decide, by decide⟩

/-- The inner loop as the specification describes it (claim C1 wording):
update x by repeated squaring `x = x^2 mod n`; pass (break) as soon as
x equals n - 1; declare composite only when the loop exhausts without
reaching n - 1.  Used only to exhibit the divergence from `mr_inner`. -/
def mr_inner_spec (n x : Nat) : Nat → TrialResult
  | 0 => TrialResult.composite
  | count + 1 =>
    let x1 := x ^ 2 % n
    if x1 = n - 1 then TrialResult.pass
    else mr_inner_spec n x1 count

/-- C1 counter-evidence: on the prime n = 17 (d = 1, s = 4) with base draw
a = 2, the spec's squaring loop passes (2 → 4 → 16 = n - 1), but the code's
inner loop computes `x = pow(x, pow(2, i)*d, n)` and hits the
`else: return False` arm on its very first iteration (i = 0), so
`miller_rabin_test` declares the prime 17 composite. -/
theorem miller_rabin_inner_loop_diverges :
    miller_rabin_test 17 1 (fun _ => 2) = false ∧
    mr_inner 17 1 (2 ^ 1 % 17) 0 (4 - 1) = TrialResult.composite ∧
    mr_inner_spec 17 (2 ^ 1 % 17) (4 - 1) = TrialResult.pass ∧
    Nat.Prime 17 := by
  refine ⟨by decide, by decide, by decide, by decide⟩

/-! ## Prime search engine (src/prime.py, find_prime) -/

/-- The `while True` loop of `find_prime` (src/prime.py lines 61-91), run
with explicit fuel so that it is total; `none` means the loop has not
terminated within `fuel` iterations.  At each iteration the candidate is the
next LCG output with the top bit forced
(`num = int(next(gen)) | (1 << (bits - 1))`), `attempts` is incremented, and
the tester selected by `algorithm` decides acceptance with `k = bits // 4`;
for any other algorithm name the loop performs no test and never breaks.
The oracle `fd t`/`md t` gives the base draws of the test run on attempt t;
on success the returned record is (accepted num, attempts). -/
def find_prime_fuel (algorithm : String) (bits seed : Nat)
    (fd md : Nat → Nat → Nat) : Nat → Nat → Option (Nat × Nat)
  | 0, _ => none
  | fuel + 1, attempts =>
    let num := lcg_numpy seed bits 1103515245 12345 attempts ||| (1 <<< (bits - 1))
    let attempts1 := attempts + 1
    if algorithm = "fermat" then
      if fermat_test num (bits / 4) (fd attempts) then some (num, attempts1)
      else find_prime_fuel algorithm bits seed fd md fuel attempts1
    else if algorithm = "miller_rabin" then
      if miller_rabin_test num (bits / 4) (md attempts) then some (num, attempts1)
      else find_prime_fuel algorithm bits seed fd md fuel attempts1
    else find_prime_fuel algorithm bits seed fd md fuel attempts1

lemma find_prime_fuel_succ_eq (alg : String) (bits seed : Nat)
    (fd md : Nat → Nat → Nat) (fuel attempts : Nat) :
    find_prime_fuel alg bits seed fd md (fuel + 1) attempts =
      if alg = "fermat" then
        if fermat_test (lcg_numpy seed bits 1103515245 12345 attempts ||| (1 <<< (bits - 1)))
            (bits / 4) (fd attempts) then
          some (lcg_numpy seed bits 1103515245 12345 attempts ||| (1 <<< (bits - 1)), attempts + 1)
        else find_prime_fuel alg bits seed fd md fuel (attempts + 1)
      else if alg = "miller_rabin" then
        if miller_rabin_test (lcg_numpy seed bits 1103515245 12345 attempts ||| (1 <<< (bits - 1)))
            (bits / 4) (md attempts) then
          some (lcg_numpy seed bits 1103515245 12345 attempts ||| (1 <<< (bits - 1)), attempts + 1)
        else find_prime_fuel alg bits seed fd md fuel (attempts + 1)
      else find_prime_fuel alg bits seed fd md fuel (attempts + 1) := rfl

lemma two_pow_le_or (g m : Nat) : 2 ^ m ≤ g ||| 2 ^ m := by
  apply Nat.testBit_implies_ge
  rw [Nat.testBit_or, Nat.testBit_two_pow_self, Bool.or_true]

lemma candidate_bounds (bits seed i : Nat) (hb : 1 ≤ bits) :
    2 ^ (bits - 1) ≤ (lcg_numpy seed bits 1103515245 12345 i ||| (1 <<< (bits - 1))) ∧
    (lcg_numpy seed bits 1103515245 12345 i ||| (1 <<< (bits - 1))) < 2 ^ bits := by
  rw [Nat.one_shiftLeft]
  exact ⟨two_pow_le_or _ _,
    Nat.or_lt_two_pow (lcg_state_lt seed bits 1103515245 12345 (i + 1))
      (Nat.pow_lt_pow_right (by decide) (by omega))⟩

lemma find_prime_fuel_spec (alg : String) (bits seed : Nat)
    (fd md : Nat → Nat → Nat) (fuel a0 num attempts : Nat) (hb : 1 ≤ bits)
    (h : find_prime_fuel alg bits seed fd md fuel a0 = some (num, attempts)) :
    2 ^ (bits - 1) ≤ num ∧ num < 2 ^ bits ∧ a0 < attempts := by
  induction fuel generalizing a0 with
  | zero => exact absurd h (by simp [find_prime_fuel])
  | succ fuel ih =>
    rw [find_prime_fuel_succ_eq] at h
    split_ifs at h with h1 h2 h3 h4
    · simp only [Option.some.injEq, Prod.mk.injEq] at h
      obtain ⟨rfl, rfl⟩ := h
      obtain ⟨hlo, hhi⟩ := candidate_bounds bits seed a0 hb
      exact ⟨hlo, hhi, by omega⟩
    · obtain ⟨hlo, hhi, ha⟩ := ih (a0 + 1) h
      exact ⟨hlo, hhi, by omega⟩
    · simp only [Option.some.injEq, Prod.mk.injEq] at h
      obtain ⟨rfl, rfl⟩ := h
      obtain ⟨hlo, hhi⟩ := candidate_bounds bits seed a0 hb
      exact ⟨hlo, hhi, by omega⟩
    · obtain ⟨hlo, hhi, ha⟩ := ih (a0 + 1) h
      exact ⟨hlo, hhi, by omega⟩
    · obtain ⟨hlo, hhi, ha⟩ := ih (a0 + 1) h
      exact ⟨hlo, hhi, by omega⟩

/-- C4: for bit width W ≥ 1, whenever the prime search loop terminates
(with any tester name, any seed, any draw oracles, within any fuel bound),
the accepted value has bit-length exactly W — it lies in [2^(W-1), 2^W)
because the candidate forces bit W-1 to 1 — and the recorded attempt count
is at least 1. -/
theorem find_prime_result_bounds (alg : String) (bits seed : Nat)
    (fd md : Nat → Nat → Nat) (fuel num attempts : Nat) (hb : 1 ≤ bits)
    (h : find_prime_fuel alg bits seed fd md fuel 0 = some (num, attempts)) :
    Nat.size num = bits ∧ 2 ^ (bits - 1) ≤ num ∧ num < 2 ^ bits ∧ 1 ≤ attempts := by
  obtain ⟨hlo, hhi, ha⟩ := find_prime_fuel_spec alg bits seed fd md fuel 0 num attempts hb h
  have h1 : Nat.size num ≤ bits := Nat.size_le.mpr hhi
  have h2 : bits - 1 < Nat.size num := Nat.lt_size.mpr hlo
  exact ⟨by omega, hlo, hhi, by omega⟩

/-- C4 witness: a concrete terminating run — width 4, seed 1, all draws 1,
miller_rabin tester — accepts 15 on the second attempt. -/
theorem find_prime_result_bounds_witness :
    Nat.size 15 = 4 ∧ 2 ^ (4 - 1) ≤ 15 ∧ 15 < 2 ^ 4 ∧ 1 ≤ 2 :=
  find_prime_result_bounds "miller_rabin" 4 1 (fun _ _ => 1) (fun _ _ => 1) 2 15 2
    (by decide) (by decide)

/-! ## Variant dispatch (C7) -/

/-- The generator dispatch of `generate_and_save` (src/prng.py lines 79-85):
"lcg" and "xorshift" build the corresponding generator; any other name
raises ValueError, modelled as `Except.error` carrying the message text
(the quotes of the original message are omitted). -/
def generate_and_save_gen (algorithm : String) (seed bits : Nat) :
    Except String (Nat → Nat) :=
  if algorithm = "lcg" then Except.ok (lcg_numpy seed bits 1103515245 12345)
  else if algorithm = "xorshift" then Except.ok (xorshift_numpy seed bits)
  else Except.error "Algorithm must be lcg or xorshift"

/-- C7 counterexample: for the unknown name "bogus", `generate_and_save`
signals an error, but `find_prime` signals nothing — its loop body has no
branch for unknown tester names, so it keeps generating candidates and,
even after 100 iterations, has neither returned nor raised. -/
theorem unknown_variant_counterexample :
    (generate_and_save_gen "bogus" 1 8).isOk = false ∧
    find_prime_fuel "bogus" 8 1 (fun _ _ => 1) (fun _ _ => 1) 100 0 = none := by
  exact ⟨rfl, by decide⟩

/-- C7 amended: on an unknown generator name, `generate_and_save` signals a
configuration error (ValueError) with no fallback; on an unknown tester
name, `find_prime` applies no fallback either, but signals nothing — the
loop never terminates, returning no result for any amount of fuel. -/
theorem unknown_variant_no_fallback (alg : String) (seed bits : Nat)
    (fd md : Nat → Nat → Nat)
    (h1 : alg ≠ "lcg") (h2 : alg ≠ "xorshift")
    (h3 : alg ≠ "fermat") (h4 : alg ≠ "miller_rabin") :
    generate_and_save_gen alg seed bits
      = Except.error "Algorithm must be lcg or xorshift" ∧
    ∀ fuel attempts, find_prime_fuel alg bits seed fd md fuel attempts = none := by
  constructor
  · unfold generate_and_save_gen
    rw [if_neg h1, if_neg h2]
  · intro fuel
    induction fuel with
    | zero => intro attempts; rfl
    | succ fuel ih =>
      intro attempts
      rw [find_prime_fuel_succ_eq, if_neg h3, if_neg h4]
      exact ih (attempts + 1)

/-- C7 witness: the amended statement applied at the concrete unknown name
"bogus" with seed 1, width 8 and fuel 5. -/
theorem unknown_variant_no_fallback_witness :
    generate_and_save_gen "bogus" 1 8
      = Except.error "Algorithm must be lcg or xorshift" ∧
    find_prime_fuel "bogus" 8 1 (fun _ _ => 1) (fun _ _ => 1) 5 0 = none := by
  have h := unknown_variant_no_fallback "bogus" 1 8 (fun _ _ => 1) (fun _ _ => 1)
    (by decide) (by decide) (by decide) (by decide)
  exact ⟨h.1, h.2 5 0⟩

/-! ## Benchmark aggregation (C8) -/

/-- The aggregation step of `generate_and_save` (src/prng.py lines 111-113):
given the recorded per-batch elapsed times and the iteration count, compute
total time as the sum of batch times, average batch time as
`total / len(batch_times)` when the list is non-empty (else 0), and speed as
`iterations / total` when total > 0 (else 0).  Elapsed times are modelled as
rationals since wall-clock measurement is external. -/
def benchmark_aggregate (iterations : Nat) (batch_times : List ℚ) : ℚ × ℚ × ℚ :=
  let total_time := batch_times.sum
  let avg_batch_time := if batch_times ≠ [] then total_time / batch_times.length else 0
  let speed := if total_time > 0 then (iterations : ℚ) / total_time else 0
  (total_time, avg_batch_time, speed)

/-- C8: the aggregated record satisfies: total elapsed time is the sum of
the per-batch times; average batch time is total / number of batches;
throughput is iterations / total, and in particular 0 (not an error) when
the total elapsed time is 0.  (Batch times are non-negative, being wall-clock
durations.) -/
theorem benchmark_aggregate_spec (iterations : Nat) (batch_times : List ℚ)
    (hnn : ∀ t ∈ batch_times, 0 ≤ t) :
    (benchmark_aggregate iterations batch_times).1 = batch_times.sum ∧
    (benchmark_aggregate iterations batch_times).2.1
      = batch_times.sum / batch_times.length ∧
    (benchmark_aggregate iterations batch_times).2.2
      = (iterations : ℚ) / batch_times.sum ∧
    (batch_times.sum = 0 → (benchmark_aggregate iterations batch_times).2.2 = 0) := by
  refine ⟨rfl, ?_, ?_, ?_⟩
  · show (if batch_times ≠ [] then batch_times.sum / batch_times.length else 0)
      = batch_times.sum / batch_times.length
    rcases batch_times with _ | ⟨t, ts⟩
    · simp
    · rw [if_pos (by simp)]
  · show (if batch_times.sum > 0 then (iterations : ℚ) / batch_times.sum else 0)
      = (iterations : ℚ) / batch_times.sum
    by_cases hpos : batch_times.sum > 0
    · rw [if_pos hpos]
    · rw [if_neg hpos]
      have hz : batch_times.sum = 0 :=
        le_antisymm (not_lt.mp hpos) (List.sum_nonneg hnn)
      rw [hz, div_zero]
  · intro hz
    show (if batch_times.sum > 0 then (iterations : ℚ) / batch_times.sum else 0) = 0
    rw [if_neg (by rw [hz]; exact lt_irrefl 0)]

/-- C8 witness: two half-second batches over 1000 iterations — total 1,
average 1/2, throughput 1000 — and the zero-time degenerate direction. -/
theorem benchmark_aggregate_spec_witness :
    (benchmark_aggregate 1000 [1/2, 1/2]).1 = ([1/2, 1/2] : List ℚ).sum ∧
    (benchmark_aggregate 1000 [1/2, 1/2]).2.1
      = ([1/2, 1/2] : List ℚ).sum / ([(1 : ℚ)/2, 1/2] : List ℚ).length ∧
    (benchmark_aggregate 1000 [1/2, 1/2]).2.2
      = (1000 : ℚ) / ([1/2, 1/2] : List ℚ).sum ∧
    (([(1 : ℚ)/2, 1/2] : List ℚ).sum = 0
      → (benchmark_aggregate 1000 [1/2, 1/2]).2.2 = 0) :=
  benchmark_aggregate_spec 1000 [1/2, 1/2] (by
    intro t ht
    simp only [List.mem_cons, List.not_mem_nil, or_false] at ht
    rcases ht with rfl | rfl <;> norm_num)
